import Mathlib

/-!
Shallow embedding of the AmbientCG USDZ material importer
(`src/__init__.py`, class `IMPORT_OT_usdz_material`, method `execute`).

The Python operator iterates over a list of selected ZIP archives.  For
each archive it extracts it into a fresh temporary directory, looks for a
`.usdc` file, snapshots the material names, invokes the host USD importer,
picks the first newly appearing material, adds image-texture nodes for the
archive's image files (with a fuzzy case-insensitive substring
de-duplication test against images already referenced by the material),
lays the new nodes out on a 3-column grid anchored at the material-output
node, creates a preview sphere object carrying the material, marks the
material as an asset (stripping an `aCG_` vendor prefix and setting
author/license metadata when present), normalises UV-map nodes, and always
removes the temporary directory in a `finally` block.  Exceptions are
caught per archive and reported as an error naming the archive; the
operator always returns `FINISHED`.

External effects (zip extraction, the host USD importer) are modelled by
an environment record supplying their results; the Blender scene is
modelled by an explicit state record threaded through the steps.
-/

namespace UsdzImport

/-! Python string primitives on character lists. -/

/-- Python `str.lower()` restricted to the ASCII range, as the filenames
handled by the importer are ASCII. -/
def lowerStr (s : String) : List Char :=
  s.data.map Char.toLower

/-- Python `l.startswith(p)` on character lists. -/
def startsB : List Char → List Char → Bool
  | [], _ => true
  | _ :: _, [] => false
  | a :: as, b :: bs => a == b && startsB as bs

/-- Python's substring test `n in l` on character lists. -/
def subStrB (n : List Char) : List Char → Bool
  | [] => n.isEmpty
  | b :: bs => startsB n (b :: bs) || subStrB n bs

/-- Python `l.endswith(suf)` on character lists. -/
def endsB (suf l : List Char) : Bool :=
  startsB suf.reverse l.reverse

/-- Python `s.startswith(pre)` on `String`. -/
def pyStartsWith (s pre : String) : Bool :=
  startsB pre.data s.data

/-- Python `s[n:]` on `String`. -/
def pyDrop (s : String) (n : Nat) : String :=
  ⟨s.data.drop n⟩

/-- Python `os.path.splitext(f)[0]`: everything before the last dot, provided some
character before that dot is not itself a dot (so `.bashrc` keeps its
name), else the whole name. -/
def stem (f : String) : String :=
  match (f.data.reverse).dropWhile (fun c => c != '.') with
  | [] => f
  | _ :: rest => if rest.any (fun c => c != '.') then ⟨rest.reverse⟩ else f

/-- Python `os.path.join` for the two-component paths built by the importer. -/
def joinPath (a b : String) : String :=
  a ++ "/" ++ b

/-! File-name tests of the importer. -/

/-- The test `f.endswith('.usdc')` of line 51 (case sensitive). -/
def usdcB (f : String) : Bool :=
  endsB ".usdc".data f.data

/-- The recognised image extensions (line 99). -/
def imageExts : List String :=
  [".png", ".jpg", ".jpeg", ".tga", ".bmp", ".tiff"]

/-- The extension test `img_file.lower().endswith(('.png', ...))` of line 99. -/
def hasImageExt (f : String) : Bool :=
  imageExts.any (fun e => endsB e.data (lowerStr f))

/-- The duplicate test of lines 104-105: some already-referenced image
name case-insensitively contains, or is contained in, the candidate
basename. -/
def isDuplicate (imgName : String) (existing : List String) : Bool :=
  existing.any (fun ex =>
    subStrB (lowerStr imgName) (lowerStr ex) ||
    subStrB (lowerStr ex) (lowerStr imgName))

/-! Scene data model. -/

/-- An image-texture node (`ShaderNodeTexImage`): the referenced image (if
any), the label, and the node location. Locations are modelled as integer
coordinates, which the constants of the layout (400, 300, 350) inhabit
exactly. -/
structure TexNode where
  image : Option String
  label : String
  locX : Int
  locY : Int
deriving DecidableEq

/-- A material: its name, the location of its `OUTPUT_MATERIAL` node when
one exists, its image-texture nodes, its `UVMAP` nodes (each holding the
selected uv-map name), and the fields mutated by the importer. -/
structure Material where
  name : String
  outputLoc : Option (Int × Int)
  texNodes : List TexNode
  uvMapNodes : List String
  displacementMethod : String
  isAsset : Bool
  author : Option String
  license : Option String
deriving DecidableEq

/-- A scene object: its name and the material referenced by its first
material slot, if any. -/
structure SceneObject where
  name : String
  matName : Option String
deriving DecidableEq

/-- Report levels of `Operator.report`. -/
inductive Level
  | info
  | warning
  | error
deriving DecidableEq

/-- One `self.report` message. -/
structure Report where
  level : Level
  msg : String
deriving DecidableEq

/-- The Blender scene as the importer sees it, plus the set of temporary
directories currently existing on disk. -/
structure SceneState where
  materials : List Material
  objects : List SceneObject
  reports : List Report
  liveTempDirs : List String
deriving DecidableEq

/-- Append one report message. -/
def addReport (lv : Level) (msg : String) (s : SceneState) : SceneState :=
  { s with reports := s.reports ++ [⟨lv, msg⟩] }

/-- Results of the external calls made while processing one archive:
the basename of the zip, the fresh temporary directory, the outcome of
`ZipFile.extractall` + `os.listdir` (file list, or an exception), and the
outcome of `bpy.ops.wm.usd_import` on a given path (materials appended to
the scene, or an exception). -/
structure ArchiveEnv where
  zipName : String
  tempDir : String
  extract : Except String (List String)
  importResult : String → Except String (List Material)

/-! Steps 5 to 12 on a single material. -/

/-- Lines 79-84: grid origin from the output node's location. -/
def gridStart (outputLoc : Option (Int × Int)) : Int × Int :=
  match outputLoc with
  | some p => (p.1 + 400, p.2)
  | none => (400, 0)

/-- Line 110-112: a fresh texture node bound to the loaded image and
labelled with the original filename; Blender places new nodes at the
origin until the layout loop moves them. -/
def mkTexNode (imgFile : String) : TexNode :=
  { image := some imgFile, label := imgFile, locX := 0, locY := 0 }

/-- Lines 97-114: one texture node for each listed file that has an image
extension and whose basename is not a fuzzy duplicate of an
already-referenced image name.  `existingImages` is the set computed once
at lines 90-94 and never extended inside the loop. -/
def mkTexNodes (files : List String) (existingImages : List String) : List TexNode :=
  ((files.filter hasImageExt).filter
      (fun f => !isDuplicate (stem f) existingImages)).map mkTexNode

/-- Lines 116-121: place the i-th new node at column `i % 3`, row `i / 3`
of the grid. -/
def layoutNodes (gsx gsy : Int) (ns : List TexNode) : List TexNode :=
  ns.enum.map (fun p =>
    { p.2 with
      locX := gsx + ((p.1 % 3 : Nat) : Int) * 300
      locY := gsy - ((p.1 / 3 : Nat) : Int) * 350 })

/-- Lines 76-124: find the output node, compute the grid origin, collect
already-referenced image names, create and lay out the new texture nodes,
and set the displacement method.  Returns the updated material and the
list of nodes that were added. -/
def augmentMaterial (files : List String) (m : Material) : Material × List TexNode :=
  let g := gridStart m.outputLoc
  let existingImages := m.texNodes.filterMap (fun n => n.image)
  let texNodes := layoutNodes g.1 g.2 (mkTexNodes files existingImages)
  ({ m with
      texNodes := m.texNodes ++ texNodes
      displacementMethod := "BOTH" }, texNodes)

/-- The license string of line 141. -/
def ccLicense : String :=
  "Creative Commons CC0 1.0 Universal License"

/-- Lines 137-142: mark as asset; when the name starts with `aCG_`, strip
the prefix and set author/license. -/
def tagAsset (m : Material) : Material :=
  let marked := { m with isAsset := true }
  if pyStartsWith marked.name "aCG_" then
    { marked with
        name := pyDrop marked.name 4
        author := some "AmbientCG.com"
        license := some ccLicense }
  else marked

/-- Lines 144-147: every `UVMAP` node is pointed at the default map. -/
def normalizeUVMaps (m : Material) : Material :=
  { m with uvMapNodes := m.uvMapNodes.map (fun _ => "UVMap") }

/-- Lines 125-134: the preview sphere, renamed to
`ImportedSphere_<material name>` and carrying the material in its first
slot. -/
def previewObject (m : Material) : SceneObject :=
  { name := "ImportedSphere_" ++ m.name, matName := some m.name }

/-- Replace the material registered under `oldName` (material names are
unique in the scene). -/
def replaceMaterial (oldName : String) (m' : Material) (ms : List Material) : List Material :=
  ms.map (fun m => if m.name == oldName then m' else m)

/-- Material slots hold references, not names: renaming a material is
visible through every slot that pointed at it. -/
def retargetObjects (oldName newName : String) (os : List SceneObject) : List SceneObject :=
  os.map (fun o =>
    if o.matName == some oldName then { o with matName := some newName } else o)

/-! One archive. -/

/-- How the guarded body of the per-archive `try` block exited. -/
inductive BodyOutcome
  | raised (msg : String)
  | noUsdc
  | noNewMats (usdcPath : String)
  | completed (usdcPath : String)
deriving DecidableEq

/-- Lines 46-150, the body of the `try` block: extraction, the `.usdc`
gate, the snapshot of material names, the host import, the new-material
gate, and the node-graph / preview-object / asset-tagging steps.  Returns
the state reached at exit along with how the body exited; state already
mutated before an exception is kept (there is no rollback). -/
def processBody (env : ArchiveEnv) (s : SceneState) : SceneState × BodyOutcome :=
  match env.extract with
  | .error e => (s, .raised e)
  | .ok files =>
    let usdcFiles := files.filter usdcB
    match usdcFiles with
    | [] =>
      (addReport .warning ("No .usdc file found in " ++ env.zipName) s, .noUsdc)
    | f :: _ =>
      let usdcPath := joinPath env.tempDir f
      let existingMats := s.materials.map (fun m => m.name)
      match env.importResult usdcPath with
      | .error e => (s, .raised e)
      | .ok imported =>
        let s1 := { s with materials := s.materials ++ imported }
        let newMats := s1.materials.filter (fun m => decide (m.name ∉ existingMats))
        match newMats with
        | [] =>
          (addReport .warning ("No new materials imported from " ++ env.zipName) s1,
            .noNewMats usdcPath)
        | newMat :: _ =>
          let m1 := (augmentMaterial files newMat).1
          let obj := previewObject m1
          let m3 := normalizeUVMaps (tagAsset m1)
          ({ s1 with
              materials := replaceMaterial newMat.name m3 s1.materials
              objects := retargetObjects newMat.name m3.name (s1.objects ++ [obj]) },
            .completed usdcPath)

/-- The error message of line 153. -/
def failMsg (zipName e : String) : String :=
  "Failed importing " ++ zipName ++ ": " ++ e

/-- Lines 42-156: the `INFO` report, `mkdtemp`, the guarded body, the
`except` clause turning an exception into an `ERROR` report, and the
`finally` clause removing the temporary directory on every exit path. -/
def processArchive (env : ArchiveEnv) (s : SceneState) : SceneState :=
  let s0 := addReport .info ("Importing " ++ env.zipName) s
  let s1 := { s0 with liveTempDirs := s0.liveTempDirs ++ [env.tempDir] }
  let r := processBody env s1
  let s2 :=
    match r.2 with
    | .raised e => addReport .error (failMsg env.zipName e) r.1
    | _ => r.1
  { s2 with liveTempDirs := s2.liveTempDirs.filter (fun d => d != env.tempDir) }

/-- Lines 41-158: process every selected archive in order and return
`FINISHED`. -/
def execute (envs : List ArchiveEnv) (s : SceneState) : SceneState × String :=
  (envs.foldl (fun st env => processArchive env st) s, "FINISHED")

end UsdzImport

namespace UsdzImport

@[simp] theorem startsB_nil (l : List Char) : startsB [] l = true := rfl

@[simp] theorem startsB_cons_nil (a : Char) (as : List Char) :
    startsB (a :: as) [] = false := rfl

@[simp] theorem startsB_cons_cons (a b : Char) (as bs : List Char) :
    startsB (a :: as) (b :: bs) = (a == b && startsB as bs) := rfl

theorem startsB_iff (p l : List Char) : startsB p l = true ↔ p <+: l := by
  induction p generalizing l with
  | nil => simp
  | cons a as ih =>
    cases l with
    | nil => simp
    | cons b bs =>
      simp [Bool.and_eq_true, beq_iff_eq, List.cons_prefix_cons, ih]

@[simp] theorem subStrB_nil (n : List Char) : subStrB n [] = n.isEmpty := rfl

@[simp] theorem subStrB_cons (n : List Char) (b : Char) (bs : List Char) :
    subStrB n (b :: bs) = (startsB n (b :: bs) || subStrB n bs) := rfl

theorem subStrB_iff (n l : List Char) : subStrB n l = true ↔ n <:+: l := by
  induction l with
  | nil => cases n <;> simp [List.isEmpty]
  | cons b bs ih =>
    rw [subStrB_cons, Bool.or_eq_true, startsB_iff, ih, List.infix_cons_iff]

theorem startsB_strip (p l : List Char) (h : startsB p l = true) :
    p ++ l.drop p.length = l := by
  induction p generalizing l with
  | nil => simp
  | cons a as ih =>
    cases l with
    | nil => simp at h
    | cons b bs =>
      rw [startsB_cons_cons, Bool.and_eq_true] at h
      obtain ⟨h1, h2⟩ := h
      rw [beq_iff_eq] at h1
      simp [h1, ih bs h2]

theorem isDuplicate_iff (imgName : String) (existing : List String) :
    isDuplicate imgName existing = true ↔
      ∃ ex ∈ existing,
        lowerStr imgName <:+: lowerStr ex ∨ lowerStr ex <:+: lowerStr imgName := by
  simp [isDuplicate, List.any_eq_true, Bool.or_eq_true, subStrB_iff]

/-- Claim C1 (amended): an image file of the archive is turned into a texture node
bound to the loaded image and labelled with the original filename exactly
when no already-referenced image name case-insensitively contains, or is
contained in, its basename; when some such name exists the file is skipped. -/
theorem dedupSkipRule (files existing : List String) (f : String)
    (hext : hasImageExt f = true) (hmem : f ∈ files) :
    (∃ n ∈ mkTexNodes files existing, n.image = some f ∧ n.label = f) ↔
      ¬ ∃ ex ∈ existing,
          lowerStr (stem f) <:+: lowerStr ex ∨ lowerStr ex <:+: lowerStr (stem f) := by
  have hmem2 : (∃ n ∈ mkTexNodes files existing, n.image = some f ∧ n.label = f) ↔
      isDuplicate (stem f) existing = false := by
    simp only [mkTexNodes, List.mem_map, List.mem_filter]
    constructor
    · rintro ⟨n, ⟨g, ⟨⟨_, _⟩, hgd⟩, rfl⟩, himg, hlab⟩
      simp only [mkTexNode, Option.some.injEq] at himg
      subst himg
      simpa using hgd
    · intro hd
      exact ⟨mkTexNode f, ⟨f, ⟨⟨hmem, hext⟩, by simp [hd]⟩, rfl⟩, rfl, rfl⟩
  rw [hmem2, ← isDuplicate_iff]
  simp

theorem dedupSkipRule_witness :
    ((∃ n ∈ mkTexNodes ["concrete_albedo.png"] ["Concrete_Albedo"],
        n.image = some "concrete_albedo.png" ∧ n.label = "concrete_albedo.png") ↔
      ¬ ∃ ex ∈ ["Concrete_Albedo"],
          lowerStr (stem "concrete_albedo.png") <:+: lowerStr ex ∨
          lowerStr ex <:+: lowerStr (stem "concrete_albedo.png")) :=
  dedupSkipRule ["concrete_albedo.png"] ["Concrete_Albedo"] "concrete_albedo.png"
    (by decide) (by decide)

theorem dedupSkipCounterexample :
    isDuplicate (stem "Albedo_Concrete.jpg") ["Concrete_Albedo"] = false ∧
    (mkTexNodes ["Albedo_Concrete.jpg"] ["Concrete_Albedo"]).map (fun n => n.label) =
      ["Albedo_Concrete.jpg"] ∧
    mkTexNodes ["concrete_albedo.png"] ["Concrete_Albedo"] = [] := by
  decide


/-- Claim C2: the i-th newly created texture node lands at
(gridStartX + (i mod 3) * 300, gridStartY - (i div 3) * 350), where the
grid origin is (output X + 400, output Y) when an output node exists and
(400, 0) otherwise. -/
theorem gridLayout (out : Option (Int × Int)) (ns : List TexNode) (i : Nat)
    (h : i < ns.length) :
    (∀ x y, out = some (x, y) → gridStart out = (x + 400, y)) ∧
    (out = none → gridStart out = (400, 0)) ∧
    ∃ n, (layoutNodes (gridStart out).1 (gridStart out).2 ns)[i]? = some n ∧
      n.locX = (gridStart out).1 + ((i % 3 : Nat) : Int) * 300 ∧
      n.locY = (gridStart out).2 - ((i / 3 : Nat) : Int) * 350 := by
  refine ⟨by rintro x y rfl; rfl, by rintro rfl; rfl, ?_⟩
  have hget : ns[i]? = some (ns.get ⟨i, h⟩) := by
    simp [List.getElem?_eq_getElem h]
  refine ⟨{ (ns.get ⟨i, h⟩) with
      locX := (gridStart out).1 + ((i % 3 : Nat) : Int) * 300
      locY := (gridStart out).2 - ((i / 3 : Nat) : Int) * 350 }, ?_, rfl, rfl⟩
  rw [layoutNodes, List.getElem?_map, List.getElem?_enum, hget]
  rfl

def dummyNode : TexNode :=
  { image := none, label := "", locX := 0, locY := 0 }

theorem gridLayout_witness :
    ∃ n, (layoutNodes (gridStart (some (0, 0))).1 (gridStart (some (0, 0))).2
            (List.replicate 7 dummyNode))[4]? = some n ∧
      n.locX = 700 ∧ n.locY = -350 := by
  obtain ⟨-, -, n, hn, hx, hy⟩ :=
    gridLayout (some (0, 0)) (List.replicate 7 dummyNode) 4 (by decide)
  refine ⟨n, hn, ?_, ?_⟩
  · rw [hx]; decide
  · rw [hy]; decide

theorem tagAsset_def (m : Material) :
    tagAsset m =
      if pyStartsWith m.name "aCG_" = true then
        { m with
            isAsset := true
            name := pyDrop m.name 4
            author := some "AmbientCG.com"
            license := some ccLicense }
      else { m with isAsset := true } := by
  unfold tagAsset
  by_cases h : pyStartsWith m.name "aCG_" = true <;> simp [h]

theorem pyDrop_prepend (s : String) (h : pyStartsWith s "aCG_" = true) :
    "aCG_" ++ pyDrop s 4 = s := by
  have h2 := startsB_strip "aCG_".data s.data h
  have h4 : ("aCG_".data).length = 4 := rfl
  rw [h4] at h2
  show String.mk ("aCG_".data ++ (s.data.drop 4)) = s
  rw [h2]

/-- Claim C3: every processed material is marked as an asset; exactly when its
name starts with `aCG_` the prefix is stripped and the fixed author and
CC0 license strings are set; otherwise name, author and license are left
unchanged. -/
theorem assetTagging (m : Material) :
    (tagAsset m).isAsset = true ∧
    (pyStartsWith m.name "aCG_" = true →
      "aCG_" ++ (tagAsset m).name = m.name ∧
      (tagAsset m).author = some "AmbientCG.com" ∧
      (tagAsset m).license = some ccLicense) ∧
    (pyStartsWith m.name "aCG_" = false →
      (tagAsset m).name = m.name ∧
      (tagAsset m).author = m.author ∧
      (tagAsset m).license = m.license) := by
  cases hb : pyStartsWith m.name "aCG_" with
  | false => simp [tagAsset_def, hb]
  | true =>
    have hname : (tagAsset m).name = pyDrop m.name 4 := by simp [tagAsset_def, hb]
    have hauth : (tagAsset m).author = some "AmbientCG.com" := by simp [tagAsset_def, hb]
    have hlic : (tagAsset m).license = some ccLicense := by simp [tagAsset_def, hb]
    have hass : (tagAsset m).isAsset = true := by simp [tagAsset_def, hb]
    refine ⟨hass, fun _ => ⟨?_, hauth, hlic⟩, fun hf => by simp [hb] at hf⟩
    rw [hname]
    exact pyDrop_prepend m.name hb

def matACG : Material :=
  { name := "aCG_Brick01", outputLoc := none, texNodes := [], uvMapNodes := [],
    displacementMethod := "", isAsset := false, author := none, license := none }

theorem assetTagging_witness :
    (tagAsset matACG).isAsset = true ∧
    "aCG_" ++ (tagAsset matACG).name = "aCG_Brick01" ∧
    (tagAsset matACG).author = some "AmbientCG.com" ∧
    (tagAsset matACG).license = some ccLicense := by
  obtain ⟨h1, h2, -⟩ := assetTagging matACG
  obtain ⟨ha, hb, hc⟩ := h2 (by decide)
  exact ⟨h1, ha, hb, hc⟩


theorem filter_self_name_nil (ms : List Material) :
    ms.filter (fun m => decide (m.name ∉ ms.map (fun x => x.name))) = [] := by
  apply List.filter_eq_nil_iff.mpr
  intro m hm
  simp only [decide_eq_true_eq, not_not]
  exact List.mem_map.mpr ⟨m, hm, rfl⟩

/-- Claim C4: an archive whose extracted file list holds no `.usdc` file leaves
materials and objects untouched, triggers no import, adds only the INFO
and the missing-file WARNING reports, and its temporary directory is
removed. -/
theorem noUsdcSkips (env : ArchiveEnv) (s : SceneState) (files : List String)
    (hx : env.extract = .ok files)
    (h : ∀ f ∈ files, usdcB f = false) :
    (processArchive env s).materials = s.materials ∧
    (processArchive env s).objects = s.objects ∧
    (processArchive env s).reports =
      s.reports ++ [⟨.info, "Importing " ++ env.zipName⟩,
                    ⟨.warning, "No .usdc file found in " ++ env.zipName⟩] ∧
    env.tempDir ∉ (processArchive env s).liveTempDirs := by
  have hfil : files.filter usdcB = [] := by
    apply List.filter_eq_nil_iff.mpr
    intro f hf
    simp [h f hf]
  simp [processArchive, processBody, hx, hfil, addReport, List.mem_filter]


def emptyState : SceneState :=
  { materials := [], objects := [], reports := [], liveTempDirs := [] }

def envNoUsdc : ArchiveEnv :=
  { zipName := "nousdc.zip", tempDir := "/tmp/t0",
    extract := .ok ["readme.txt", "Concrete_Albedo.png"],
    importResult := fun _ => .ok [] }

theorem noUsdcSkips_witness :
    (processArchive envNoUsdc emptyState).materials = emptyState.materials ∧
    (processArchive envNoUsdc emptyState).objects = emptyState.objects ∧
    (processArchive envNoUsdc emptyState).reports =
      emptyState.reports ++ [⟨.info, "Importing " ++ envNoUsdc.zipName⟩,
                             ⟨.warning, "No .usdc file found in " ++ envNoUsdc.zipName⟩] ∧
    envNoUsdc.tempDir ∉ (processArchive envNoUsdc emptyState).liveTempDirs :=
  noUsdcSkips envNoUsdc emptyState ["readme.txt", "Concrete_Albedo.png"] rfl (by decide)

theorem processBody_outcome_cons (env : ArchiveEnv) (s : SceneState)
    (files : List String) (f : String) (rest : List String)
    (hx : env.extract = .ok files) (hfil : files.filter usdcB = f :: rest) :
    (∃ e, (processBody env s).2 = .raised e) ∨
    (processBody env s).2 = .noNewMats (joinPath env.tempDir f) ∨
    (processBody env s).2 = .completed (joinPath env.tempDir f) := by
  simp only [processBody, hx, hfil]
  cases him : env.importResult (joinPath env.tempDir f) with
  | error e => exact .inl ⟨e, by simp only [him]⟩
  | ok imported =>
    cases hnl : List.filter (fun m => decide (m.name ∉ List.map (fun m => m.name) s.materials))
        (s.materials ++ imported) with
    | nil => exact .inr (.inl (by simp only [him, hnl]))
    | cons nm tl => exact .inr (.inr (by simp only [him, hnl]))

/-- Claim C5 (amended): the archive is skipped with the missing-scene-file
warning exactly when its extracted file list holds no `.usdc` file; when
at least one `.usdc` file is present (one or several), processing
continues using the first match. -/
theorem usdcGate (env : ArchiveEnv) (s : SceneState) (files : List String)
    (hx : env.extract = .ok files) :
    ((processBody env s).2 = .noUsdc ↔ files.filter usdcB = []) ∧
    (files.filter usdcB = [] →
      (processBody env s).1 =
        addReport .warning ("No .usdc file found in " ++ env.zipName) s) ∧
    (∀ f rest, files.filter usdcB = f :: rest →
      ∀ p, ((processBody env s).2 = .completed p ∨
            (processBody env s).2 = .noNewMats p) →
        p = joinPath env.tempDir f) := by
  refine ⟨⟨?_, ?_⟩, ?_, ?_⟩
  · intro h2
    by_contra hne
    obtain ⟨f, rest, hfil⟩ : ∃ f rest, files.filter usdcB = f :: rest := by
      cases hc : files.filter usdcB with
      | nil => exact absurd hc hne
      | cons a b => exact ⟨a, b, rfl⟩
    rcases processBody_outcome_cons env s files f rest hx hfil with ⟨e, he⟩ | he | he <;>
      rw [h2] at he <;> cases he
  · intro hfil
    simp [processBody, hx, hfil]
  · intro hfil
    simp [processBody, hx, hfil]
  · intro f rest hfil p hor
    rcases processBody_outcome_cons env s files f rest hx hfil with ⟨e, he⟩ | he | he <;>
      rcases hor with h2 | h2 <;> rw [he] at h2 <;> cases h2 <;> rfl

/-- Claim C6: an archive whose import yields no new material names gets the
no-new-materials warning and none of the later steps: no texture nodes,
no preview object, no asset tagging; the already-present materials are
untouched and the temporary directory is removed. -/
theorem noNewMaterials (env : ArchiveEnv) (s : SceneState) (files : List String)
    (f : String) (rest : List String) (imported : List Material)
    (hx : env.extract = .ok files)
    (hfil : files.filter usdcB = f :: rest)
    (hi : env.importResult (joinPath env.tempDir f) = .ok imported)
    (hold : ∀ m ∈ imported, m.name ∈ s.materials.map (fun m => m.name)) :
    (processArchive env s).materials = s.materials ++ imported ∧
    (processArchive env s).objects = s.objects ∧
    (processArchive env s).reports =
      s.reports ++ [⟨.info, "Importing " ++ env.zipName⟩,
                    ⟨.warning, "No new materials imported from " ++ env.zipName⟩] ∧
    env.tempDir ∉ (processArchive env s).liveTempDirs := by
  have h1 : s.materials.filter
      (fun m => decide (m.name ∉ List.map (fun m => m.name) s.materials)) = [] :=
    filter_self_name_nil s.materials
  have h2 : imported.filter
      (fun m => decide (m.name ∉ List.map (fun m => m.name) s.materials)) = [] := by
    apply List.filter_eq_nil_iff.mpr
    intro m hm
    simp only [decide_eq_true_eq, not_not]
    exact hold m hm
  have hnm : List.filter (fun m => decide (m.name ∉ List.map (fun m => m.name) s.materials))
      (s.materials ++ imported) = [] := by
    rw [List.filter_append, h1, h2]
    rfl
  simp only [processArchive, processBody, hx, hfil, hi, hnm, addReport]
  refine ⟨trivial, trivial, by simp, ?_⟩
  simp [List.mem_filter]

/-- Claim C7: after processing any archive, on every exit path (success, early
skip, or an exception from extraction or import), the archive's temporary
directory no longer exists. -/
theorem tempDirCleanup (env : ArchiveEnv) (s : SceneState) :
    env.tempDir ∉ (processArchive env s).liveTempDirs := by
  simp [processArchive, List.mem_filter]


def matFresh : Material :=
  { name := "OfficeCeiling001", outputLoc := some (0, 0), texNodes := [], uvMapNodes := [],
    displacementMethod := "DISPLACEMENT", isAsset := false, author := none, license := none }

def envTwoUsdc : ArchiveEnv :=
  { zipName := "two.zip", tempDir := "/tmp/t1",
    extract := .ok ["a.usdc", "b.usdc"],
    importResult := fun _ => .ok [matFresh] }

theorem twoUsdcProcessed :
    (["a.usdc", "b.usdc"].filter usdcB).length = 2 ∧
    (processBody envTwoUsdc emptyState).2 = .completed (joinPath "/tmp/t1" "a.usdc") ∧
    (∃ m ∈ (processArchive envTwoUsdc emptyState).materials, m.isAsset = true) ∧
    (∀ r ∈ (processArchive envTwoUsdc emptyState).reports, r.level ≠ .warning) := by
  decide

theorem usdcGate_witness :
    ((processBody envTwoUsdc emptyState).2 = .noUsdc ↔
        ["a.usdc", "b.usdc"].filter usdcB = []) ∧
    (["a.usdc", "b.usdc"].filter usdcB = [] →
      (processBody envTwoUsdc emptyState).1 =
        addReport .warning ("No .usdc file found in " ++ envTwoUsdc.zipName) emptyState) ∧
    (∀ f rest, ["a.usdc", "b.usdc"].filter usdcB = f :: rest →
      ∀ p, ((processBody envTwoUsdc emptyState).2 = .completed p ∨
            (processBody envTwoUsdc emptyState).2 = .noNewMats p) →
        p = joinPath envTwoUsdc.tempDir f) :=
  usdcGate envTwoUsdc emptyState ["a.usdc", "b.usdc"] rfl

def matExisting : Material :=
  { name := "Existing", outputLoc := none, texNodes := [], uvMapNodes := [],
    displacementMethod := "", isAsset := false, author := none, license := none }

def stateWithExisting : SceneState :=
  { materials := [matExisting], objects := [], reports := [], liveTempDirs := [] }

def envReimport : ArchiveEnv :=
  { zipName := "dup.zip", tempDir := "/tmp/t2",
    extract := .ok ["scene.usdc"],
    importResult := fun _ => .ok [matExisting] }

theorem noNewMaterials_witness :
    (processArchive envReimport stateWithExisting).materials =
      stateWithExisting.materials ++ [matExisting] ∧
    (processArchive envReimport stateWithExisting).objects = stateWithExisting.objects ∧
    (processArchive envReimport stateWithExisting).reports =
      stateWithExisting.reports ++
        [⟨.info, "Importing " ++ envReimport.zipName⟩,
         ⟨.warning, "No new materials imported from " ++ envReimport.zipName⟩] ∧
    envReimport.tempDir ∉ (processArchive envReimport stateWithExisting).liveTempDirs :=
  noNewMaterials envReimport stateWithExisting ["scene.usdc"] "scene.usdc" [] [matExisting]
    rfl (by decide) rfl (by decide)


theorem augmentMaterial_name (files : List String) (m : Material) :
    (augmentMaterial files m).1.name = m.name := rfl

theorem normalizeUVMaps_name (m : Material) : (normalizeUVMaps m).name = m.name := rfl

theorem normalizeUVMaps_isAsset (m : Material) :
    (normalizeUVMaps m).isAsset = m.isAsset := rfl

theorem tagAsset_isAsset (m : Material) : (tagAsset m).isAsset = true := by
  rw [tagAsset_def]
  by_cases h : pyStartsWith m.name "aCG_" = true <;> simp [h]

theorem processArchive_raisedExtract (env : ArchiveEnv) (s : SceneState) (e : String)
    (hx : env.extract = .error e) :
    (processArchive env s).materials = s.materials ∧
    (processArchive env s).objects = s.objects ∧
    (processArchive env s).reports =
      s.reports ++ [⟨.info, "Importing " ++ env.zipName⟩,
                    ⟨.error, failMsg env.zipName e⟩] := by
  simp [processArchive, processBody, hx, addReport]

theorem processArchive_completed (env : ArchiveEnv) (s : SceneState) (files : List String)
    (f : String) (rest : List String) (mat : Material)
    (hx : env.extract = .ok files)
    (hfil : files.filter usdcB = f :: rest)
    (hi : env.importResult (joinPath env.tempDir f) = .ok [mat])
    (hfresh : mat.name ∉ s.materials.map (fun m => m.name)) :
    (processArchive env s).materials =
      replaceMaterial mat.name (normalizeUVMaps (tagAsset (augmentMaterial files mat).1))
        (s.materials ++ [mat]) ∧
    (processArchive env s).objects =
      retargetObjects mat.name (normalizeUVMaps (tagAsset (augmentMaterial files mat).1)).name
        (s.objects ++ [previewObject (augmentMaterial files mat).1]) ∧
    (processArchive env s).reports = s.reports ++ [⟨.info, "Importing " ++ env.zipName⟩] := by
  have hnm : List.filter (fun m => decide (m.name ∉ List.map (fun m => m.name) s.materials))
      (s.materials ++ [mat]) = [mat] := by
    rw [List.filter_append, filter_self_name_nil]
    simp only [List.nil_append, List.filter_cons, decide_eq_true_eq]
    rw [if_pos]
    · rfl
    · intro hcon
      exact hfresh hcon
  simp only [processArchive, processBody, hx, hfil, hi, hnm, addReport]
  exact ⟨trivial, trivial, by simp⟩

/-- Claim C8: an exception in one archive is caught and reported as a single
error naming that archive, processing continues with the next archive
(whose material, preview object and asset tagging still happen), and the
operator returns FINISHED. -/
theorem archiveIsolation (bad good : ArchiveEnv) (s : SceneState) (e : String)
    (files : List String) (f : String) (rest : List String) (mat : Material)
    (hbad : bad.extract = .error e)
    (hok : good.extract = .ok files)
    (hfil : files.filter usdcB = f :: rest)
    (hi : good.importResult (joinPath good.tempDir f) = .ok [mat])
    (hfresh : mat.name ∉ s.materials.map (fun m => m.name)) :
    (execute [bad, good] s).2 = "FINISHED" ∧
    (execute [bad, good] s).1.reports =
      s.reports ++ [⟨.info, "Importing " ++ bad.zipName⟩,
                    ⟨.error, failMsg bad.zipName e⟩,
                    ⟨.info, "Importing " ++ good.zipName⟩] ∧
    (∃ m ∈ (execute [bad, good] s).1.materials, m.isAsset = true) ∧
    (∃ o ∈ (execute [bad, good] s).1.objects,
      o.name = "ImportedSphere_" ++ mat.name) := by
  have hexec : (execute [bad, good] s).1 = processArchive good (processArchive bad s) := rfl
  obtain ⟨hm1, ho1, hr1⟩ := processArchive_raisedExtract bad s e hbad
  have hfresh1 : mat.name ∉ (processArchive bad s).materials.map (fun m => m.name) := by
    rw [hm1]; exact hfresh
  obtain ⟨hm2, ho2, hr2⟩ :=
    processArchive_completed good (processArchive bad s) files f rest mat hok hfil hi hfresh1
  refine ⟨rfl, ?_, ?_, ?_⟩
  · rw [hexec, hr2, hr1]
    simp
  · rw [hexec, hm2]
    refine ⟨normalizeUVMaps (tagAsset (augmentMaterial files mat).1), ?_, ?_⟩
    · unfold replaceMaterial
      exact List.mem_map.mpr ⟨mat, by simp, by simp⟩
    · simp [normalizeUVMaps_isAsset, tagAsset_isAsset]
  · rw [hexec, ho2]
    refine ⟨⟨"ImportedSphere_" ++ mat.name,
        some (normalizeUVMaps (tagAsset (augmentMaterial files mat).1)).name⟩, ?_, rfl⟩
    unfold retargetObjects
    apply List.mem_map.mpr
    refine ⟨previewObject (augmentMaterial files mat).1, by simp, ?_⟩
    simp [previewObject, augmentMaterial_name]


def envBad : ArchiveEnv :=
  { zipName := "broken.zip", tempDir := "/tmp/t3",
    extract := .error "Bad zip file", importResult := fun _ => .ok [] }

def envGood : ArchiveEnv :=
  { zipName := "good.zip", tempDir := "/tmp/t4",
    extract := .ok ["mat.usdc", "Metal_Albedo.png"],
    importResult := fun _ => .ok [matFresh] }

theorem archiveIsolation_witness :
    (execute [envBad, envGood] emptyState).2 = "FINISHED" ∧
    (execute [envBad, envGood] emptyState).1.reports =
      emptyState.reports ++ [⟨.info, "Importing " ++ envBad.zipName⟩,
                             ⟨.error, failMsg envBad.zipName "Bad zip file"⟩,
                             ⟨.info, "Importing " ++ envGood.zipName⟩] ∧
    (∃ m ∈ (execute [envBad, envGood] emptyState).1.materials, m.isAsset = true) ∧
    (∃ o ∈ (execute [envBad, envGood] emptyState).1.objects,
      o.name = "ImportedSphere_" ++ matFresh.name) :=
  archiveIsolation envBad envGood emptyState "Bad zip file"
    ["mat.usdc", "Metal_Albedo.png"] "mat.usdc" [] matFresh
    rfl rfl (by decide) rfl (by decide)

theorem mem_mkTexNodes (files existing : List String) (f : String)
    (hmem : f ∈ files) (hext : hasImageExt f = true)
    (hdup : isDuplicate (stem f) existing = false) :
    mkTexNode f ∈ mkTexNodes files existing := by
  unfold mkTexNodes
  exact List.mem_map.mpr
    ⟨f, List.mem_filter.mpr ⟨List.mem_filter.mpr ⟨hmem, hext⟩, by simp [hdup]⟩, rfl⟩

/-- Claim C9: the set of already-referenced image names is fixed before the
texture-node loop and not extended by it, so two image files of the same
archive whose basenames case-insensitively contain one another both
receive texture nodes, provided neither matches a pre-existing image
name. -/
theorem dedupBaselineFixed (files existing : List String) (f1 f2 : String)
    (h1 : f1 ∈ files) (h2 : f2 ∈ files)
    (he1 : hasImageExt f1 = true) (he2 : hasImageExt f2 = true)
    (_hmut : subStrB (lowerStr (stem f1)) (lowerStr (stem f2)) = true)
    (hd1 : isDuplicate (stem f1) existing = false)
    (hd2 : isDuplicate (stem f2) existing = false) :
    (∃ n ∈ mkTexNodes files existing, n.label = f1) ∧
    (∃ n ∈ mkTexNodes files existing, n.label = f2) :=
  ⟨⟨mkTexNode f1, mem_mkTexNodes files existing f1 h1 he1 hd1, rfl⟩,
   ⟨mkTexNode f2, mem_mkTexNodes files existing f2 h2 he2 hd2, rfl⟩⟩

theorem dedupBaselineFixed_witness :
    (∃ n ∈ mkTexNodes ["drywall.png", "wall.png"] ["Concrete_Albedo"],
        n.label = "wall.png") ∧
    (∃ n ∈ mkTexNodes ["drywall.png", "wall.png"] ["Concrete_Albedo"],
        n.label = "drywall.png") :=
  dedupBaselineFixed ["drywall.png", "wall.png"] ["Concrete_Albedo"]
    "wall.png" "drywall.png" (by decide) (by decide) (by decide) (by decide)
    (by decide) (by decide) (by decide)

/-- Claim C10: the preview object is named `ImportedSphere_` plus the material
name as it is at object-creation time; the vendor-prefix stripping
happens afterwards, so for a material imported with an `aCG_` name the
object keeps the prefixed name while the material it references ends up
renamed without the prefix. -/
theorem previewObjectNaming (env : ArchiveEnv) (s : SceneState) (files : List String)
    (f : String) (rest : List String) (mat : Material)
    (hx : env.extract = .ok files)
    (hfil : files.filter usdcB = f :: rest)
    (hi : env.importResult (joinPath env.tempDir f) = .ok [mat])
    (hfresh : mat.name ∉ s.materials.map (fun m => m.name))
    (hpre : pyStartsWith mat.name "aCG_" = true) :
    ∃ o ∈ (processArchive env s).objects,
      o.name = "ImportedSphere_" ++ mat.name ∧
      ∃ m ∈ (processArchive env s).materials,
        o.matName = some m.name ∧ "aCG_" ++ m.name = mat.name := by
  obtain ⟨hm2, ho2, -⟩ := processArchive_completed env s files f rest mat hx hfil hi hfresh
  refine ⟨⟨"ImportedSphere_" ++ mat.name,
      some (normalizeUVMaps (tagAsset (augmentMaterial files mat).1)).name⟩, ?_, rfl,
    normalizeUVMaps (tagAsset (augmentMaterial files mat).1), ?_, rfl, ?_⟩
  · rw [ho2]
    unfold retargetObjects
    apply List.mem_map.mpr
    refine ⟨previewObject (augmentMaterial files mat).1, by simp, ?_⟩
    simp [previewObject, augmentMaterial_name]
  · rw [hm2]
    unfold replaceMaterial
    exact List.mem_map.mpr ⟨mat, by simp, by simp⟩
  · have hname : (normalizeUVMaps (tagAsset (augmentMaterial files mat).1)).name =
        pyDrop mat.name 4 := by
      simp [normalizeUVMaps_name, tagAsset_def, augmentMaterial_name, hpre]
    rw [hname]
    exact pyDrop_prepend mat.name hpre

def envACG : ArchiveEnv :=
  { zipName := "aCG_Brick01.zip", tempDir := "/tmp/t5",
    extract := .ok ["brick.usdc", "Brick01_Albedo.png"],
    importResult := fun _ => .ok [matACG] }

theorem previewObjectNaming_witness :
    ∃ o ∈ (processArchive envACG emptyState).objects,
      o.name = "ImportedSphere_" ++ matACG.name ∧
      ∃ m ∈ (processArchive envACG emptyState).materials,
        o.matName = some m.name ∧ "aCG_" ++ m.name = matACG.name :=
  previewObjectNaming envACG emptyState ["brick.usdc", "Brick01_Albedo.png"]
    "brick.usdc" [] matACG rfl (by decide) rfl (by decide) (by decide)

end UsdzImport
